import Mathlib

/-!
# PeaceMaker registry filter: `RegistryFilter.cpp`

A shallow embedding of `RegistryBlockingFilter` (constructor, destructor,
`BlockRegistryOperation`, `RegistryCallback`) and the properties proved about it.

Conventions of the embedding

* `NTSTATUS` is a signed 32-bit value, kept as an `Int`; `NT_SUCCESS s` is `0 ≤ s`.
* `ULONG` arithmetic is done on `Nat` with an explicit `% 2 ^ 32`.
* A wide string in memory is a `List WCHAR` (UTF-16 code units, `0` is the terminator).
* A pointer or handle is an `Option Nat`: `none` is `NULL`, `some a` is a non-null value
  with identity `a`.
* The kernel (object manager, configuration manager, pool allocator) and the
  `StringFilters` matcher are outside `RegistryFilter.cpp`; their answers are taken as
  parameters (`Host`, `Matcher`, `LifecycleHost`), so every theorem holds for every answer
  they can give.
* Each run of a function records the calls it makes, in order, in a list of events.
-/

namespace PeaceMaker

/-! ## Basic types and constants of the platform headers -/

abbrev NTSTATUS := Int

abbrev WCHAR := Nat

def STATUS_SUCCESS : NTSTATUS := 0

def STATUS_BUFFER_OVERFLOW : NTSTATUS := 0x80000005 - 2 ^ 32

def STATUS_UNSUCCESSFUL : NTSTATUS := 0xC0000001 - 2 ^ 32

def STATUS_INVALID_PARAMETER : NTSTATUS := 0xC000000D - 2 ^ 32

def STATUS_NO_MEMORY : NTSTATUS := 0xC0000017 - 2 ^ 32

def STATUS_ACCESS_DENIED : NTSTATUS := 0xC0000022 - 2 ^ 32

/-- The macro `NT_SUCCESS(Status)`: `((NTSTATUS)(Status)) >= 0`. -/
def NT_SUCCESS (s : NTSTATUS) : Bool := decide (0 ≤ s)

/-- Range of a `ULONG`. -/
def ULONG_RANGE : Nat := 2 ^ 32

/-- Largest value of a `USHORT`, the type of `UNICODE_STRING.Length`. -/
def USHORT_MAX : Nat := 65535

/-- The constant `NTSTRSAFE_MAX_CCH` of `ntstrsafe.h`. -/
def NTSTRSAFE_MAX_CCH : Nat := 2147483647

/-- Values of `REG_NOTIFY_CLASS` (wdm.h) that `RegistryCallback` switches on. -/
def RegNtPreSetValueKey : Nat := 1

def RegNtPreDeleteValueKey : Nat := 2

/-- Modelled from the spec: the `FILTER_FLAG_*` constants are declared in a header that is
not part of `RegistryFilter.cpp`; section 3 of the specification gives the operation kind
as the enumeration of write and delete. -/
inductive OperationFlag where
  | FILTER_FLAG_WRITE
  | FILTER_FLAG_DELETE
deriving DecidableEq, Repr

open OperationFlag

/-- The counted string `UNICODE_STRING`: `Length` is a byte count, `Buffer` is `none` for a
null pointer and otherwise the code units readable in memory from that address on (the
value name is the first `Length` bytes of them; nothing says a terminator follows). -/
structure UNICODE_STRING where
  Length : Nat
  MaximumLength : Nat
  Buffer : Option (List WCHAR)
deriving DecidableEq, Repr

/-- The fields of `REG_SET_VALUE_KEY_INFORMATION` / `REG_DELETE_VALUE_KEY_INFORMATION`
that the callback reads: the key object and the pointer to the value name. -/
structure REG_VALUE_KEY_INFORMATION where
  Object : Nat
  ValueName : Option UNICODE_STRING
deriving DecidableEq, Repr

/-- Byte offset of `Name` in `KEY_NAME_INFORMATION` (`ULONG NameLength; WCHAR Name[1];`). -/
def FIELD_OFFSET_Name : Nat := 4

/-- Size in bytes of the `USHORT` stored as terminator at line 138. -/
def SIZEOF_USHORT : Nat := 2

/-! ## The host and the matcher -/

/-- The statements inside the `__try` block of `BlockRegistryOperation`, in source order. -/
inductive Step where
  | openKey          -- line 103, ObOpenObjectByPointer
  | querySize        -- line 110, ZwQueryKey with a null buffer
  | allocKeyName     -- line 118, ExAllocatePoolWithTag
  | queryName        -- line 128, ZwQueryKey into the buffer
  | storeTerminator  -- line 138
  | allocFullName    -- line 144, ExAllocatePoolWithTag
  | copyKeyName      -- line 154, RtlStringCbCopyW
  | catBackslash     -- line 164, RtlStringCbCatW
  | catValueName     -- line 174, RtlStringCbCatW
  | matchesFilter    -- line 181, MatchesFilter
deriving DecidableEq, Repr

/-- What the kernel answers during one call of `BlockRegistryOperation`. -/
structure Host where
  /-- Whether a statement of lines 103-174 raises a structured exception (the matcher of
  line 181 answers for itself, see `Matcher`). -/
  raises : Step → Bool
  /-- Status of `ObOpenObjectByPointer`. -/
  openStatus : NTSTATUS
  /-- Handle it stores on success. -/
  openedHandle : Nat
  /-- The `returnLength` stored by the sizing `ZwQueryKey`. -/
  requiredSize : Nat
  /-- Result of the first `ExAllocatePoolWithTag`. -/
  keyNamePool : Option Nat
  /-- Status of the second `ZwQueryKey`. -/
  queryStatus : NTSTATUS
  /-- The key name it stores in `Name`; `NameLength` is its length in bytes. -/
  keyName : List WCHAR
  /-- Result of the second `ExAllocatePoolWithTag`. -/
  fullNamePool : Option Nat

/-- The method `StringFilters::MatchesFilter`, defined outside `RegistryFilter.cpp`:
`some b` when it returns `b`, `none` when it raises an exception. -/
abbrev Matcher := List WCHAR → OperationFlag → Option Bool

/-- Calls made by one run, in order. -/
inductive Event where
  | ObOpenObjectByPointer (KeyObject : Nat) (status : NTSTATUS) (handle : Option Nat)
  | ZwQueryKey (keyHandle : Option Nat) (Length : Nat)
  | ExAllocatePoolWithTag (NumberOfBytes : Nat) (result : Option Nat)
  | storeUSHORT (pool : Option Nat) (byteOffset : Nat)
  | RtlStringCbCopyW (dest : Option Nat) (cbDest : Nat) (status : NTSTATUS) (text : List WCHAR)
  | RtlStringCbCatW (dest : Option Nat) (cbDest : Nat) (status : NTSTATUS) (text : List WCHAR)
  | MatchesFilter (fullKeyValueName : List WCHAR) (flag : OperationFlag) (result : Bool)
  | raised (s : Step)
  | ExFreePoolWithTag (pool : Nat)
  | ZwClose (handle : Nat)
deriving DecidableEq, Repr

/-! ## The bounded string functions of `ntstrsafe.h` -/

/-- Outcome of a bounded string function: it raised while reading its source, or it
returned `status` leaving `dest` (the code units before the terminator) in the buffer. -/
inductive StrResult where
  | raised
  | returned (status : NTSTATUS) (dest : List WCHAR)
deriving DecidableEq, Repr

/-- The copy loop shared by the `RtlStringCb*W` functions, for `cchDest > 0`:
`while (cchDest && *src) { *dest++ = *src++; cchDest--; }`, then on `cchDest == 0` step
back one unit and report `STATUS_BUFFER_OVERFLOW`, then store the terminator.
`src` is the readable memory at the source pointer; reading past its end raises. -/
def copyWorker (cchDest : Nat) (src : List WCHAR) : StrResult :=
  let s := src.takeWhile (fun w => w != 0)
  if s.length < cchDest then
    if s.length < src.length then StrResult.returned STATUS_SUCCESS s
    else StrResult.raised
  else StrResult.returned STATUS_BUFFER_OVERFLOW (s.take (cchDest - 1))

/-- The function `RtlStringCbCopyW(dest, cbDest, src)`; `dest` is the previous content. -/
def RtlStringCbCopyW (dest : List WCHAR) (cbDest : Nat) (src : List WCHAR) : StrResult :=
  let cchDest := cbDest / 2
  if cchDest = 0 ∨ NTSTRSAFE_MAX_CCH < cchDest then
    StrResult.returned STATUS_INVALID_PARAMETER dest
  else copyWorker cchDest src

/-- The function `RtlStringCbCatW(dest, cbDest, src)`: appends to the string in `dest`. -/
def RtlStringCbCatW (dest : List WCHAR) (cbDest : Nat) (src : List WCHAR) : StrResult :=
  let cchDest := cbDest / 2
  if cchDest = 0 ∨ NTSTRSAFE_MAX_CCH < cchDest ∨ cchDest ≤ dest.length then
    StrResult.returned STATUS_INVALID_PARAMETER dest
  else
    match copyWorker (cchDest - dest.length) src with
    | StrResult.raised => StrResult.raised
    | StrResult.returned status tail => StrResult.returned status (dest ++ tail)

/-! ## `BlockRegistryOperation` -/

/-- Line 117-118: `returnLength += 1`, the size of the key-name allocation. -/
def keyNameAllocationSize (returnLength : Nat) : Nat := (returnLength + 1) % ULONG_RANGE

/-- Line 138: byte offset, in the key-name allocation, of the terminator that is stored at
`&pKeyNameInformation->Name + pKeyNameInformation->NameLength`. -/
def terminatorOffset (NameLength : Nat) : Nat := FIELD_OFFSET_Name + NameLength

/-- Line 143: `NameLength + 2 + ValueName->Length + 1000` as a `ULONG`. -/
def fullKeyValueLength (NameLength ValueLength : Nat) : Nat :=
  (NameLength + 2 + ValueLength + 1000) % ULONG_RANGE

/-- The place where the function leaves its body. -/
inductive ExitPoint where
  | valueNameInvalid      -- line 91
  | openFailed            -- line 107
  | sizeZero              -- line 114
  | keyNameAllocFailed    -- line 122
  | queryFailed           -- line 132
  | fullNameAllocFailed   -- line 148
  | copyFailed            -- line 158
  | catBackslashFailed    -- line 168
  | catValueFailed        -- line 178
  | exception             -- line 185, the handler of the `__try` block
  | matched               -- line 181 was completed
deriving DecidableEq, Repr

/-- The local variables that are read after the label `Exit`, with the text held by the
full-name buffer. -/
structure Locals where
  blockOperation : Bool
  keyHandle : Option Nat
  pKeyNameInformation : Option Nat
  fullKeyValueName : Option Nat
  fullKeyValueText : List WCHAR
deriving DecidableEq, Repr

/-- Lines 82-86. -/
def Locals.initial : Locals :=
  { blockOperation := false, keyHandle := none, pKeyNameInformation := none,
    fullKeyValueName := none, fullKeyValueText := [] }

/-- State of a finished run: locals, the calls made, and the exit taken. -/
structure Run where
  locals : Locals
  trace : List Event
  exit : ExitPoint
deriving DecidableEq, Repr

/-- State inside the `__try` block: `exit` is `none` while control goes on to the next
statement, `some e` once control has left for the label `Exit` (or for the handler). -/
structure Progress where
  locals : Locals
  trace : List Event
  exit : Option ExitPoint
deriving DecidableEq, Repr

/-- Sequencing of statements: `next` runs only if control has not left. -/
def Progress.andThen (p : Progress) (next : Locals → List Event → Progress) : Progress :=
  match p.exit with
  | none => next p.locals p.trace
  | some _ => p

/-- The statement `s` raises: control goes to the handler of line 185. -/
def Progress.raise (l : Locals) (t : List Event) (s : Step) : Progress :=
  { locals := l, trace := t ++ [Event.raised s], exit := some ExitPoint.exception }

/-- Lines 103-108. -/
def openKey (host : Host) (KeyObject : Nat) (l : Locals) (t : List Event) : Progress :=
  if host.raises Step.openKey then Progress.raise l t Step.openKey
  else if NT_SUCCESS host.openStatus = false then
    { locals := l, trace := t ++ [Event.ObOpenObjectByPointer KeyObject host.openStatus none],
      exit := some ExitPoint.openFailed }
  else
    { locals := { l with keyHandle := some host.openedHandle },
      trace := t ++ [Event.ObOpenObjectByPointer KeyObject host.openStatus
        (some host.openedHandle)],
      exit := none }

/-- Lines 110-115. -/
def querySize (host : Host) (l : Locals) (t : List Event) : Progress :=
  if host.raises Step.querySize then Progress.raise l t Step.querySize
  else if host.requiredSize % ULONG_RANGE = 0 then
    { locals := l, trace := t ++ [Event.ZwQueryKey l.keyHandle 0],
      exit := some ExitPoint.sizeZero }
  else { locals := l, trace := t ++ [Event.ZwQueryKey l.keyHandle 0], exit := none }

/-- Lines 117-123. -/
def allocKeyName (host : Host) (l : Locals) (t : List Event) : Progress :=
  if host.raises Step.allocKeyName then Progress.raise l t Step.allocKeyName
  else
    let returnLength := keyNameAllocationSize host.requiredSize
    match host.keyNamePool with
    | none =>
      { locals := l, trace := t ++ [Event.ExAllocatePoolWithTag returnLength none],
        exit := some ExitPoint.keyNameAllocFailed }
    | some pool =>
      { locals := { l with pKeyNameInformation := some pool },
        trace := t ++ [Event.ExAllocatePoolWithTag returnLength (some pool)],
        exit := none }

/-- Lines 128-133. -/
def queryName (host : Host) (l : Locals) (t : List Event) : Progress :=
  if host.raises Step.queryName then Progress.raise l t Step.queryName
  else if NT_SUCCESS host.queryStatus = false then
    { locals := l,
      trace := t ++ [Event.ZwQueryKey l.keyHandle (keyNameAllocationSize host.requiredSize)],
      exit := some ExitPoint.queryFailed }
  else
    { locals := l,
      trace := t ++ [Event.ZwQueryKey l.keyHandle (keyNameAllocationSize host.requiredSize)],
      exit := none }

/-- The field `pKeyNameInformation->NameLength` after the query: the byte length of the
key name. -/
def NameLength (host : Host) : Nat := 2 * host.keyName.length

/-- Line 138. -/
def storeTerminator (host : Host) (l : Locals) (t : List Event) : Progress :=
  if host.raises Step.storeTerminator then Progress.raise l t Step.storeTerminator
  else
    { locals := l,
      trace := t ++ [Event.storeUSHORT l.pKeyNameInformation
        (terminatorOffset (NameLength host))],
      exit := none }

/-- The memory at `&pKeyNameInformation->Name` after line 138. -/
def terminatedName (host : Host) : List WCHAR := host.keyName ++ [0]

/-- Lines 143-149. -/
def allocFullName (host : Host) (ValueLength : Nat) (l : Locals) (t : List Event) : Progress :=
  if host.raises Step.allocFullName then Progress.raise l t Step.allocFullName
  else
    let cb := fullKeyValueLength (NameLength host) ValueLength
    match host.fullNamePool with
    | none =>
      { locals := l, trace := t ++ [Event.ExAllocatePoolWithTag cb none],
        exit := some ExitPoint.fullNameAllocFailed }
    | some pool =>
      { locals := { l with fullKeyValueName := some pool },
        trace := t ++ [Event.ExAllocatePoolWithTag cb (some pool)],
        exit := none }

/-- The part shared by lines 154-159, 164-169 and 174-179: what follows a bounded string
call `r` made by statement `s`, with `failure` the exit taken on a failure status. -/
def afterStringCall (r : StrResult) (s : Step) (failure : ExitPoint)
    (call : NTSTATUS → List WCHAR → Event) (l : Locals) (t : List Event) : Progress :=
  match r with
  | StrResult.raised => Progress.raise l t s
  | StrResult.returned status text =>
    { locals := { l with fullKeyValueText := text },
      trace := t ++ [call status text],
      exit := if NT_SUCCESS status = false then some failure else none }

/-- Lines 154-159. -/
def copyKeyName (host : Host) (ValueLength : Nat) (l : Locals) (t : List Event) : Progress :=
  if host.raises Step.copyKeyName then Progress.raise l t Step.copyKeyName
  else
    afterStringCall
      (RtlStringCbCopyW l.fullKeyValueText (fullKeyValueLength (NameLength host) ValueLength)
        (terminatedName host))
      Step.copyKeyName ExitPoint.copyFailed
      (Event.RtlStringCbCopyW l.fullKeyValueName
        (fullKeyValueLength (NameLength host) ValueLength)) l t

/-- Lines 164-169; the source is the one-character literal holding a backslash. -/
def catBackslash (host : Host) (ValueLength : Nat) (l : Locals) (t : List Event) : Progress :=
  if host.raises Step.catBackslash then Progress.raise l t Step.catBackslash
  else
    afterStringCall
      (RtlStringCbCatW l.fullKeyValueText (fullKeyValueLength (NameLength host) ValueLength)
        [92, 0])
      Step.catBackslash ExitPoint.catBackslashFailed
      (Event.RtlStringCbCatW l.fullKeyValueName
        (fullKeyValueLength (NameLength host) ValueLength)) l t

/-- Lines 174-179; the source is `ValueName->Buffer`. -/
def catValueName (host : Host) (ValueLength : Nat) (ValueBuffer : List WCHAR) (l : Locals)
    (t : List Event) : Progress :=
  if host.raises Step.catValueName then Progress.raise l t Step.catValueName
  else
    afterStringCall
      (RtlStringCbCatW l.fullKeyValueText (fullKeyValueLength (NameLength host) ValueLength)
        ValueBuffer)
      Step.catValueName ExitPoint.catValueFailed
      (Event.RtlStringCbCatW l.fullKeyValueName
        (fullKeyValueLength (NameLength host) ValueLength)) l t

/-- Line 181. -/
def queryMatcher (matcher : Matcher) (OperationFlag : OperationFlag) (l : Locals)
    (t : List Event) : Progress :=
  match matcher l.fullKeyValueText OperationFlag with
  | none => Progress.raise l t Step.matchesFilter
  | some b =>
    { locals := { l with blockOperation := b },
      trace := t ++ [Event.MatchesFilter l.fullKeyValueText OperationFlag b],
      exit := none }

/-- Lines 103-179: the statements of the `__try` block before the matcher is queried.
The exit is `none` when control reaches line 181. -/
def resolveName (host : Host) (KeyObject : Nat) (ValueLength : Nat) (ValueBuffer : List WCHAR) :
    Progress :=
  (((((((((openKey host KeyObject Locals.initial []).andThen
    (querySize host)).andThen
    (allocKeyName host)).andThen
    (queryName host)).andThen
    (storeTerminator host)).andThen
    (allocFullName host ValueLength)).andThen
    (copyKeyName host ValueLength)).andThen
    (catBackslash host ValueLength)).andThen
    (catValueName host ValueLength ValueBuffer))

/-- Lines 99-186: the `__try` block with its empty handler. -/
def tryBlock (host : Host) (matcher : Matcher) (KeyObject : Nat) (ValueLength : Nat)
    (ValueBuffer : List WCHAR) (OperationFlag : OperationFlag) : Run :=
  let p := (resolveName host KeyObject ValueLength ValueBuffer).andThen
    (queryMatcher matcher OperationFlag)
  { locals := p.locals, trace := p.trace, exit := p.exit.getD ExitPoint.matched }

/-- Lines 188-201: the code after the label `Exit`. -/
def exitBlock (r : Run) : Run :=
  let t1 := match r.locals.fullKeyValueName with
    | some p => r.trace ++ [Event.ExFreePoolWithTag p]
    | none => r.trace
  let t2 := match r.locals.pKeyNameInformation with
    | some p => t1 ++ [Event.ExFreePoolWithTag p]
    | none => t1
  let t3 := match r.locals.keyHandle with
    | some h => t2 ++ [Event.ZwClose h]
    | none => t2
  { r with trace := t3 }

/-- The whole of `BlockRegistryOperation` (lines 67-202), with its calls recorded. -/
def BlockRegistryOperationRun (host : Host) (matcher : Matcher) (KeyObject : Nat)
    (ValueName : Option UNICODE_STRING) (OperationFlag : OperationFlag) : Run :=
  let invalid : Run :=
    { locals := Locals.initial, trace := [], exit := ExitPoint.valueNameInvalid }
  match ValueName with
  | none => exitBlock invalid
  | some v =>
    if v.Length = 0 then exitBlock invalid
    else
      match v.Buffer with
      | none => exitBlock invalid
      | some buffer => exitBlock (tryBlock host matcher KeyObject v.Length buffer OperationFlag)

/-- The value `BlockRegistryOperation` returns. -/
def BlockRegistryOperation (host : Host) (matcher : Matcher) (KeyObject : Nat)
    (ValueName : Option UNICODE_STRING) (OperationFlag : OperationFlag) : Bool :=
  (BlockRegistryOperationRun host matcher KeyObject ValueName OperationFlag).locals.blockOperation

/-! ## `RegistryCallback` -/

/-- Lines 205-240. `Argument2` is `none` when the pointer cannot be read; the two handled
cases dereference it outside any handler, so the result is then `none` (no status is
returned). Otherwise the result is the status with the calls made. -/
def RegistryCallbackRun (host : Host) (matcher : Matcher) (OperationClass : Nat)
    (Argument2 : Option REG_VALUE_KEY_INFORMATION) : Option (NTSTATUS × List Event) :=
  if OperationClass = RegNtPreSetValueKey then
    match Argument2 with
    | none => none
    | some setValueInformation =>
      let r := BlockRegistryOperationRun host matcher setValueInformation.Object
        setValueInformation.ValueName FILTER_FLAG_WRITE
      some (if r.locals.blockOperation then STATUS_ACCESS_DENIED else STATUS_SUCCESS, r.trace)
  else if OperationClass = RegNtPreDeleteValueKey then
    match Argument2 with
    | none => none
    | some deleteValueInformation =>
      let r := BlockRegistryOperationRun host matcher deleteValueInformation.Object
        deleteValueInformation.ValueName FILTER_FLAG_DELETE
      some (if r.locals.blockOperation then STATUS_ACCESS_DENIED else STATUS_SUCCESS, r.trace)
  else some (STATUS_SUCCESS, [])

/-- The status `RegistryCallback` returns. -/
def RegistryCallback (host : Host) (matcher : Matcher) (OperationClass : Nat)
    (Argument2 : Option REG_VALUE_KEY_INFORMATION) : Option NTSTATUS :=
  (RegistryCallbackRun host matcher OperationClass Argument2).map Prod.fst

/-- The notification class whose handler passes `flag` to `BlockRegistryOperation`. -/
def notifyClassOf : OperationFlag → Nat
  | FILTER_FLAG_WRITE => RegNtPreSetValueKey
  | FILTER_FLAG_DELETE => RegNtPreDeleteValueKey

/-- The text handed to `MatchesFilter` when control reaches line 181: `none` when the
function leaves earlier. -/
def resolvedFullName (host : Host) (KeyObject : Nat) (ValueName : Option UNICODE_STRING) :
    Option (List WCHAR) :=
  match ValueName with
  | none => none
  | some v =>
    if v.Length = 0 then none
    else
      match v.Buffer with
      | none => none
      | some buffer =>
        let p := resolveName host KeyObject v.Length buffer
        match p.exit with
        | none => some p.locals.fullKeyValueText
        | some _ => none

/-! ## Resources acquired and released, read off a trace -/

/-- The handle a call opened, if it opened one. -/
def Event.openedHandle : Event → Option Nat
  | Event.ObOpenObjectByPointer _ _ (some h) => some h
  | _ => none

/-- The handle a call closed, if it closed one. -/
def Event.closedHandle : Event → Option Nat
  | Event.ZwClose h => some h
  | _ => none

/-- The pool block a call allocated, if it allocated one. -/
def Event.allocatedPool : Event → Option Nat
  | Event.ExAllocatePoolWithTag _ (some p) => some p
  | _ => none

/-- The pool block a call freed, if it freed one. -/
def Event.freedPool : Event → Option Nat
  | Event.ExFreePoolWithTag p => some p
  | _ => none

/-- Handles opened, handles closed, pool blocks allocated and pool blocks freed by the
calls of a trace, in order. -/
def openedHandles (t : List Event) : List Nat := t.filterMap Event.openedHandle

def closedHandles (t : List Event) : List Nat := t.filterMap Event.closedHandle

def allocatedPools (t : List Event) : List Nat := t.filterMap Event.allocatedPool

def freedPools (t : List Event) : List Nat := t.filterMap Event.freedPool

/-! ## Assertions used in the proofs -/

/-- Assertion on a `Progress`: `Mid` if control goes on, `Post` if it has left. -/
def Progress.Sat (Mid Post : Locals → List Event → Prop) (p : Progress) : Prop :=
  match p.exit with
  | none => Mid p.locals p.trace
  | some _ => Post p.locals p.trace

/-- What the trace has acquired is exactly what the locals hold, and nothing has been
released yet. -/
def Balanced (l : Locals) (t : List Event) : Prop :=
  openedHandles t = l.keyHandle.toList ∧ closedHandles t = [] ∧
  allocatedPools t = l.pKeyNameInformation.toList ++ l.fullKeyValueName.toList ∧
  freedPools t = []

/-- An event that acquires and releases nothing. -/
def Event.neutral (e : Event) : Prop :=
  e.openedHandle = none ∧ e.closedHandle = none ∧ e.allocatedPool = none ∧ e.freedPool = none

/-! ## Concrete inputs and the readings of the claims -/

/-- The key path `\Config\App\Settings` as UTF-16 code units. -/
def settingsKey : List WCHAR :=
  [92, 67, 111, 110, 102, 105, 103, 92, 65, 112, 112, 92, 83, 101, 116, 116, 105, 110, 103, 115]

/-- The value name `License`. -/
def licenseName : List WCHAR := [76, 105, 99, 101, 110, 115, 101]

/-- The path `\Config\App\Settings\License`. -/
def licensePath : List WCHAR := settingsKey ++ [92] ++ licenseName

/-- A host on which every call succeeds, for the key `settingsKey`. -/
def settingsHost : Host :=
  { raises := fun _ => false, openStatus := STATUS_SUCCESS, openedHandle := 7,
    requiredSize := FIELD_OFFSET_Name + 2 * settingsKey.length, keyNamePool := some 100,
    queryStatus := STATUS_SUCCESS, keyName := settingsKey, fullNamePool := some 200 }

/-- The value name `License` in a buffer that holds a terminator right after it. -/
def licenseValue : UNICODE_STRING :=
  { Length := 14, MaximumLength := 16, Buffer := some (licenseName ++ [0]) }

/-- The value name `License` as the first 14 bytes of a buffer holding `LicenseKey`. -/
def licensePrefixValue : UNICODE_STRING :=
  { Length := 14, MaximumLength := 22, Buffer := some (licenseName ++ [75, 101, 121, 0]) }

/-- A matcher that blocks writes (and only writes) to `licensePath`. -/
def writeOnlyMatcher : Matcher :=
  fun path flag => some (decide (path = licensePath ∧ flag = FILTER_FLAG_WRITE))

/-- A matcher that blocks everything. -/
def blockAllMatcher : Matcher := fun _ _ => some true

/-- The claim's reading of a descriptor that cannot be resolved: null, of zero length, or
with a null buffer. -/
def InvalidValueName (ValueName : Option UNICODE_STRING) : Prop :=
  match ValueName with
  | none => True
  | some v => v.Length = 0 ∨ v.Buffer = none

/-- The claim's reading of the value name: the first `Length` bytes of the buffer. -/
def countedValueName (v : UNICODE_STRING) : List WCHAR :=
  (v.Buffer.getD []).take (v.Length / 2)

/-- The pool allocation that a string call can write to after the event `e`, as its size
and its block: a successful `ExAllocatePoolWithTag` makes its block the current one, and
freeing the current block leaves none. -/
def allocationAfter (current : Option (Nat × Nat)) (e : Event) : Option (Nat × Nat) :=
  match e with
  | Event.ExAllocatePoolWithTag size (some pool) => some (size, pool)
  | Event.ExFreePoolWithTag pool =>
    match current with
    | some (size, p) => if p = pool then none else some (size, p)
    | none => none
  | _ => current

/-- The current pool allocation after the calls of `t`. -/
def currentAllocation (current : Option (Nat × Nat)) (t : List Event) : Option (Nat × Nat) :=
  t.foldl allocationAfter current

/-- A string call stays inside the capacity: its destination is the block of the current
allocation, that allocation has exactly `capacity` bytes, the call is given `capacity`
as `cbDest`, and the text it leaves takes, with the two-byte terminator, at most
`capacity` bytes. -/
def stringCallInside (capacity : Nat) (current : Option (Nat × Nat)) (dest : Option Nat)
    (cbDest : Nat) (text : List WCHAR) : Bool :=
  match current, dest with
  | some (size, pool), some d =>
    decide (d = pool ∧ size = capacity ∧ cbDest = capacity ∧
      2 * text.length + SIZEOF_USHORT ≤ capacity)
  | _, _ => false

/-- The event `e`, made while `current` is the current allocation, is not a string call
or is one that stays inside the capacity. -/
def Event.writesInside (capacity : Nat) (current : Option (Nat × Nat)) : Event → Bool
  | Event.RtlStringCbCopyW dest cbDest _ text =>
    stringCallInside capacity current dest cbDest text
  | Event.RtlStringCbCatW dest cbDest _ text =>
    stringCallInside capacity current dest cbDest text
  | _ => true

/-- Every string call of the trace comes after the allocation of a block of `capacity`
bytes, writes to that block, is given `capacity` as its bound and leaves its text and
terminator inside it. -/
def writesStayInside (capacity : Nat) : Option (Nat × Nat) → List Event → Bool
  | _, [] => true
  | current, e :: t =>
    e.writesInside capacity current && writesStayInside capacity (allocationAfter current e) t

/-- Assertion before line 144: no string call was made and the full-name text is empty. -/
def Quiet (capacity : Nat) (l : Locals) (t : List Event) : Prop :=
  writesStayInside capacity none t = true ∧ l.fullKeyValueText = []

/-- Assertion from line 144 on: the current allocation is the full-name block with
`capacity` bytes, and the text in it fits with its terminator. -/
def Live (capacity : Nat) (l : Locals) (t : List Event) : Prop :=
  writesStayInside capacity none t = true ∧
  (∃ pool, currentAllocation none t = some (capacity, pool) ∧
    l.fullKeyValueName = some pool) ∧
  2 * l.fullKeyValueText.length + SIZEOF_USHORT ≤ capacity

/-- Assertion at every exit: the string calls stayed inside and the text fits. -/
def Fits (capacity : Nat) (l : Locals) (t : List Event) : Prop :=
  writesStayInside capacity none t = true ∧
  2 * l.fullKeyValueText.length + SIZEOF_USHORT ≤ capacity

/-- A value name of two bytes in a buffer of 600 code units without a terminator. -/
def unterminatedValue : UNICODE_STRING :=
  { Length := 2, MaximumLength := 1200, Buffer := some (List.replicate 600 65) }

/-- Whether the terminator stored at line 138 lies inside the allocation of line 118, for
the `returnLength` reported by the sizing query and the `NameLength` of the key name. -/
def terminatorWithinAllocation (returnLength NameLength : Nat) : Bool :=
  decide (terminatorOffset NameLength + SIZEOF_USHORT ≤ keyNameAllocationSize returnLength)

/-! ## Constructor and destructor -/

/-- Life of the `StringFilters` object behind `RegistryStringFilters`. -/
inductive MatcherState where
  | absent
  | constructed
  | destroyed   -- after `~StringFilters()`
  | freed       -- after `ExFreePoolWithTag`
deriving DecidableEq, Repr

/-- The static members of the class, with the state of the matcher object and the cookie
under which the host holds the callback registered (`none`: not registered). -/
structure Lifecycle where
  RegistryStringFilters : Option Nat
  RegistryFilterCookie : Nat
  matcher : MatcherState
  registeredCookie : Option Nat
deriving DecidableEq, Repr

/-- The state before the constructor runs: zero-initialised statics, no matcher, no hook. -/
def Lifecycle.idle : Lifecycle :=
  { RegistryStringFilters := none, RegistryFilterCookie := 0, matcher := MatcherState.absent,
    registeredCookie := none }

/-- What the kernel answers to the constructor. -/
structure LifecycleHost where
  /-- Result of the pool `new` of line 17 (`none`: the allocation failed). -/
  newStringFilters : Option Nat
  /-- Status of `CmRegisterCallbackEx`. -/
  registerStatus : NTSTATUS
  /-- Cookie it stores on success. -/
  cookie : Nat

/-- Calls made by the constructor and the destructor. -/
inductive LifecycleEvent where
  | newStringFilters (result : Option Nat)
  | CmRegisterCallbackEx (status : NTSTATUS)
  | CmUnRegisterCallback (cookie : Nat)
  | destroyStringFilters (pool : Nat)
  | ExFreePoolWithTag (pool : Nat)
deriving DecidableEq, Repr

/-- Result of the constructor or the destructor: the final state, the value stored in
`*InitializeStatus` (constructor only), the calls made, and the state after each of them. -/
structure LifecycleRun where
  state : Lifecycle
  InitializeStatus : Option NTSTATUS
  events : List LifecycleEvent
  states : List Lifecycle
deriving DecidableEq, Repr

/-- Lines 10-34, the constructor. -/
def RegistryBlockingFilter (host : LifecycleHost) (s : Lifecycle) : LifecycleRun :=
  -- line 17
  match host.newStringFilters with
  | none =>
    let s1 := { s with RegistryStringFilters := none }
    -- lines 18-23
    { state := s1, InitializeStatus := some STATUS_NO_MEMORY,
      events := [LifecycleEvent.newStringFilters none], states := [s1] }
  | some pool =>
    let s1 := { s with RegistryStringFilters := some pool, matcher := MatcherState.constructed }
    -- line 33
    let s2 :=
      if NT_SUCCESS host.registerStatus then
        { s1 with RegistryFilterCookie := host.cookie, registeredCookie := some host.cookie }
      else s1
    { state := s2, InitializeStatus := some host.registerStatus,
      events := [LifecycleEvent.newStringFilters (some pool),
        LifecycleEvent.CmRegisterCallbackEx host.registerStatus],
      states := [s1, s2] }

/-- Lines 39-51, the destructor. With a null `RegistryStringFilters` line 49 dereferences
a null pointer and the run ends there. -/
def RegistryBlockingFilterDestructor (s : Lifecycle) : LifecycleRun :=
  -- line 44
  let s1 :=
    if s.registeredCookie = some s.RegistryFilterCookie then { s with registeredCookie := none }
    else s
  match s.RegistryStringFilters with
  | none =>
    { state := s1, InitializeStatus := none,
      events := [LifecycleEvent.CmUnRegisterCallback s.RegistryFilterCookie], states := [s1] }
  | some pool =>
    -- line 49
    let s2 := { s1 with matcher := MatcherState.destroyed }
    -- line 50
    let s3 := { s2 with matcher := MatcherState.freed }
    { state := s3, InitializeStatus := none,
      events := [LifecycleEvent.CmUnRegisterCallback s.RegistryFilterCookie,
        LifecycleEvent.destroyStringFilters pool, LifecycleEvent.ExFreePoolWithTag pool],
      states := [s1, s2, s3] }

/-- Every state passed through when the constructor runs from the idle state and the
destructor runs after it. -/
def lifecycleStates (host : LifecycleHost) : List Lifecycle :=
  Lifecycle.idle :: (RegistryBlockingFilter host Lifecycle.idle).states ++
    (RegistryBlockingFilterDestructor (RegistryBlockingFilter host Lifecycle.idle).state).states

/-- The matcher is not destroyed (or freed) while the hook is registered. -/
def Lifecycle.teardownSafe (s : Lifecycle) : Bool :=
  !((s.matcher == MatcherState.destroyed || s.matcher == MatcherState.freed) &&
    s.registeredCookie.isSome)

/-- The state the claim calls idle: no hook installed and no matcher held. -/
def Lifecycle.isIdle (s : Lifecycle) : Bool :=
  s.registeredCookie.isNone && s.RegistryStringFilters.isNone &&
    (s.matcher != MatcherState.constructed)

/-- A host on which the matcher is allocated and the registration fails. -/
def failingInstallHost : LifecycleHost :=
  { newStringFilters := some 500, registerStatus := STATUS_UNSUCCESSFUL, cookie := 0 }

/-! ## Theorems -/

theorem Progress.andThen_sat {P Q Post : Locals → List Event → Prop} (p : Progress)
    (next : Locals → List Event → Progress) (hp : p.Sat P Post)
    (hn : ∀ l t, P l t → (next l t).Sat Q Post) : (p.andThen next).Sat Q Post := by
  unfold Progress.andThen
  cases he : p.exit with
  | none =>
    simp only
    apply hn
    simpa [Progress.Sat, he] using hp
  | some e =>
    simp only
    simpa [Progress.Sat, he] using hp

theorem Progress.Sat.both {I : Locals → List Event → Prop} {p : Progress} (h : p.Sat I I) :
    I p.locals p.trace := by
  unfold Progress.Sat at h
  cases he : p.exit <;> simpa [he] using h

/-- Every statement of lines 103-179 keeps `I`, so `I` holds wherever `resolveName` ends. -/
theorem resolveName_invariant (I : Locals → List Event → Prop) (host : Host)
    (KeyObject ValueLength : Nat) (ValueBuffer : List WCHAR)
    (h0 : I Locals.initial [])
    (h1 : ∀ l t, I l t → (openKey host KeyObject l t).Sat I I)
    (h2 : ∀ l t, I l t → (querySize host l t).Sat I I)
    (h3 : ∀ l t, I l t → (allocKeyName host l t).Sat I I)
    (h4 : ∀ l t, I l t → (queryName host l t).Sat I I)
    (h5 : ∀ l t, I l t → (storeTerminator host l t).Sat I I)
    (h6 : ∀ l t, I l t → (allocFullName host ValueLength l t).Sat I I)
    (h7 : ∀ l t, I l t → (copyKeyName host ValueLength l t).Sat I I)
    (h8 : ∀ l t, I l t → (catBackslash host ValueLength l t).Sat I I)
    (h9 : ∀ l t, I l t → (catValueName host ValueLength ValueBuffer l t).Sat I I) :
    I (resolveName host KeyObject ValueLength ValueBuffer).locals
      (resolveName host KeyObject ValueLength ValueBuffer).trace := by
  apply Progress.Sat.both
  unfold resolveName
  exact Progress.andThen_sat _ _ (Progress.andThen_sat _ _ (Progress.andThen_sat _ _
    (Progress.andThen_sat _ _ (Progress.andThen_sat _ _ (Progress.andThen_sat _ _
    (Progress.andThen_sat _ _ (Progress.andThen_sat _ _ (h1 _ _ h0) h2) h3) h4) h5) h6) h7) h8) h9

theorem afterStringCall_blockOperation (r : StrResult) (s : Step) (failure : ExitPoint)
    (call : NTSTATUS → List WCHAR → Event) (l : Locals) (t : List Event)
    (h : l.blockOperation = false) :
    (afterStringCall r s failure call l t).Sat (fun l _ => l.blockOperation = false)
      (fun l _ => l.blockOperation = false) := by
  cases r with
  | raised => simpa [afterStringCall, Progress.raise, Progress.Sat] using h
  | returned status text =>
    simp only [afterStringCall, Progress.Sat]
    split <;> simpa using h

theorem resolveName_blockOperation (host : Host) (KeyObject ValueLength : Nat)
    (ValueBuffer : List WCHAR) :
    (resolveName host KeyObject ValueLength ValueBuffer).locals.blockOperation = false := by
  apply resolveName_invariant (fun l _ => l.blockOperation = false)
  · rfl
  · intro l t h
    unfold openKey Progress.raise Progress.Sat
    split_ifs <;> simpa using h
  · intro l t h
    unfold querySize Progress.raise Progress.Sat
    split_ifs <;> simpa using h
  · intro l t h
    unfold allocKeyName Progress.raise Progress.Sat
    split_ifs
    · simpa using h
    · cases host.keyNamePool <;> simpa using h
  · intro l t h
    unfold queryName Progress.raise Progress.Sat
    split_ifs <;> simpa using h
  · intro l t h
    unfold storeTerminator Progress.raise Progress.Sat
    split_ifs <;> simpa using h
  · intro l t h
    unfold allocFullName Progress.raise Progress.Sat
    split_ifs
    · simpa using h
    · cases host.fullNamePool <;> simpa using h
  · intro l t h
    unfold copyKeyName
    split_ifs
    · simpa [Progress.raise, Progress.Sat] using h
    · exact afterStringCall_blockOperation _ _ _ _ l t h
  · intro l t h
    unfold catBackslash
    split_ifs
    · simpa [Progress.raise, Progress.Sat] using h
    · exact afterStringCall_blockOperation _ _ _ _ l t h
  · intro l t h
    unfold catValueName
    split_ifs
    · simpa [Progress.raise, Progress.Sat] using h
    · exact afterStringCall_blockOperation _ _ _ _ l t h

theorem openedHandles_snoc (t : List Event) (e : Event) :
    openedHandles (t ++ [e]) = openedHandles t ++ e.openedHandle.toList := by
  cases h : e.openedHandle <;> simp [openedHandles, List.filterMap_append, h]

theorem closedHandles_snoc (t : List Event) (e : Event) :
    closedHandles (t ++ [e]) = closedHandles t ++ e.closedHandle.toList := by
  cases h : e.closedHandle <;> simp [closedHandles, List.filterMap_append, h]

theorem allocatedPools_snoc (t : List Event) (e : Event) :
    allocatedPools (t ++ [e]) = allocatedPools t ++ e.allocatedPool.toList := by
  cases h : e.allocatedPool <;> simp [allocatedPools, List.filterMap_append, h]

theorem freedPools_snoc (t : List Event) (e : Event) :
    freedPools (t ++ [e]) = freedPools t ++ e.freedPool.toList := by
  cases h : e.freedPool <;> simp [freedPools, List.filterMap_append, h]

theorem Balanced.append_neutral {l : Locals} {t : List Event} (h : Balanced l t) {e : Event}
    (he : e.neutral) : Balanced l (t ++ [e]) := by
  obtain ⟨h1, h2, h3, h4⟩ := h
  obtain ⟨e1, e2, e3, e4⟩ := he
  refine ⟨?_, ?_, ?_, ?_⟩
  · rw [openedHandles_snoc, e1, h1]; simp
  · rw [closedHandles_snoc, e2, h2]; simp
  · rw [allocatedPools_snoc, e3, h3]; simp
  · rw [freedPools_snoc, e4, h4]; simp

theorem Balanced.text {l : Locals} {t : List Event} (h : Balanced l t) (text : List WCHAR) :
    Balanced { l with fullKeyValueText := text } t := h

theorem Balanced.verdict {l : Locals} {t : List Event} (h : Balanced l t) (b : Bool) :
    Balanced { l with blockOperation := b } t := h

theorem Balanced.raise {l : Locals} {t : List Event} (h : Balanced l t) (s : Step) :
    Balanced l (t ++ [Event.raised s]) :=
  h.append_neutral ⟨rfl, rfl, rfl, rfl⟩

theorem Balanced.opened {l : Locals} {t : List Event} (h : Balanced l t)
    (hk : l.keyHandle = none) (KeyObject : Nat) (status : NTSTATUS) (handle : Nat) :
    Balanced { l with keyHandle := some handle }
      (t ++ [Event.ObOpenObjectByPointer KeyObject status (some handle)]) := by
  obtain ⟨h1, h2, h3, h4⟩ := h
  refine ⟨?_, ?_, ?_, ?_⟩
  · rw [openedHandles_snoc, h1, hk]; rfl
  · rw [closedHandles_snoc, h2]; rfl
  · rw [allocatedPools_snoc, h3]; simp [Event.allocatedPool]
  · rw [freedPools_snoc, h4]; rfl

theorem Balanced.keyNameAllocated {l : Locals} {t : List Event} (h : Balanced l t)
    (hk : l.pKeyNameInformation = none) (hf : l.fullKeyValueName = none) (size pool : Nat) :
    Balanced { l with pKeyNameInformation := some pool }
      (t ++ [Event.ExAllocatePoolWithTag size (some pool)]) := by
  obtain ⟨h1, h2, h3, h4⟩ := h
  refine ⟨?_, ?_, ?_, ?_⟩
  · rw [openedHandles_snoc, h1]; simp [Event.openedHandle]
  · rw [closedHandles_snoc, h2]; rfl
  · rw [allocatedPools_snoc, h3, hk, hf]; simp [Event.allocatedPool, hf]
  · rw [freedPools_snoc, h4]; rfl

theorem Balanced.fullNameAllocated {l : Locals} {t : List Event} (h : Balanced l t)
    (hf : l.fullKeyValueName = none) (size pool : Nat) :
    Balanced { l with fullKeyValueName := some pool }
      (t ++ [Event.ExAllocatePoolWithTag size (some pool)]) := by
  obtain ⟨h1, h2, h3, h4⟩ := h
  refine ⟨?_, ?_, ?_, ?_⟩
  · rw [openedHandles_snoc, h1]; simp [Event.openedHandle]
  · rw [closedHandles_snoc, h2]; rfl
  · rw [allocatedPools_snoc, h3, hf]; simp [Event.allocatedPool]
  · rw [freedPools_snoc, h4]; rfl

theorem afterStringCall_balanced (r : StrResult) (s : Step) (failure : ExitPoint)
    (call : NTSTATUS → List WCHAR → Event) (hcall : ∀ status text, (call status text).neutral)
    (l : Locals) (t : List Event) (h : Balanced l t) :
    (afterStringCall r s failure call l t).Sat Balanced Balanced := by
  cases r with
  | raised => simpa [afterStringCall, Progress.raise, Progress.Sat] using h.raise s
  | returned status text =>
    have hb := (h.append_neutral (hcall status text)).text text
    simp only [afterStringCall, Progress.Sat]
    split <;> exact hb

theorem resolveName_balanced (host : Host) (KeyObject ValueLength : Nat)
    (ValueBuffer : List WCHAR) :
    Balanced (resolveName host KeyObject ValueLength ValueBuffer).locals
      (resolveName host KeyObject ValueLength ValueBuffer).trace := by
  apply Progress.Sat.both
  unfold resolveName
  -- the assertions that hold between the statements
  let S1 : Locals → List Event → Prop := fun l t =>
    Balanced l t ∧ l.pKeyNameInformation = none ∧ l.fullKeyValueName = none
  let S3 : Locals → List Event → Prop := fun l t => Balanced l t ∧ l.fullKeyValueName = none
  have h0 : Balanced Locals.initial [] := ⟨rfl, rfl, rfl, rfl⟩
  have hopen : (openKey host KeyObject Locals.initial []).Sat S1 Balanced := by
    unfold openKey Progress.raise Progress.Sat
    split_ifs
    · exact h0.raise _
    · exact h0.append_neutral ⟨rfl, rfl, rfl, rfl⟩
    · exact ⟨h0.opened rfl _ _ _, rfl, rfl⟩
  have hsize : ∀ l t, S1 l t → (querySize host l t).Sat S1 Balanced := by
    intro l t h
    unfold querySize Progress.raise Progress.Sat
    split_ifs
    · exact h.1.raise _
    · exact h.1.append_neutral ⟨rfl, rfl, rfl, rfl⟩
    · exact ⟨h.1.append_neutral ⟨rfl, rfl, rfl, rfl⟩, h.2⟩
  have hkey : ∀ l t, S1 l t → (allocKeyName host l t).Sat S3 Balanced := by
    intro l t h
    unfold allocKeyName Progress.raise Progress.Sat
    split_ifs
    · exact h.1.raise _
    · cases host.keyNamePool with
      | none => exact h.1.append_neutral ⟨rfl, rfl, rfl, rfl⟩
      | some pool => exact ⟨h.1.keyNameAllocated h.2.1 h.2.2 _ _, h.2.2⟩
  have hquery : ∀ l t, S3 l t → (queryName host l t).Sat S3 Balanced := by
    intro l t h
    unfold queryName Progress.raise Progress.Sat
    split_ifs
    · exact h.1.raise _
    · exact h.1.append_neutral ⟨rfl, rfl, rfl, rfl⟩
    · exact ⟨h.1.append_neutral ⟨rfl, rfl, rfl, rfl⟩, h.2⟩
  have hstore : ∀ l t, S3 l t → (storeTerminator host l t).Sat S3 Balanced := by
    intro l t h
    unfold storeTerminator Progress.raise Progress.Sat
    split_ifs
    · exact h.1.raise _
    · exact ⟨h.1.append_neutral ⟨rfl, rfl, rfl, rfl⟩, h.2⟩
  have hfull : ∀ l t, S3 l t → (allocFullName host ValueLength l t).Sat Balanced Balanced := by
    intro l t h
    unfold allocFullName Progress.raise Progress.Sat
    split_ifs
    · exact h.1.raise _
    · cases host.fullNamePool with
      | none => exact h.1.append_neutral ⟨rfl, rfl, rfl, rfl⟩
      | some pool => exact h.1.fullNameAllocated h.2 _ _
  have hcopy : ∀ l t, Balanced l t → (copyKeyName host ValueLength l t).Sat Balanced Balanced := by
    intro l t h
    unfold copyKeyName
    split_ifs
    · simpa [Progress.raise, Progress.Sat] using h.raise _
    · refine afterStringCall_balanced _ _ _ _ ?_ l t h
      intro status text
      exact ⟨rfl, rfl, rfl, rfl⟩
  have hslash : ∀ l t, Balanced l t →
      (catBackslash host ValueLength l t).Sat Balanced Balanced := by
    intro l t h
    unfold catBackslash
    split_ifs
    · simpa [Progress.raise, Progress.Sat] using h.raise _
    · refine afterStringCall_balanced _ _ _ _ ?_ l t h
      intro status text
      exact ⟨rfl, rfl, rfl, rfl⟩
  have hvalue : ∀ l t, Balanced l t →
      (catValueName host ValueLength ValueBuffer l t).Sat Balanced Balanced := by
    intro l t h
    unfold catValueName
    split_ifs
    · simpa [Progress.raise, Progress.Sat] using h.raise _
    · refine afterStringCall_balanced _ _ _ _ ?_ l t h
      intro status text
      exact ⟨rfl, rfl, rfl, rfl⟩
  exact Progress.andThen_sat _ _ (Progress.andThen_sat _ _ (Progress.andThen_sat _ _
    (Progress.andThen_sat _ _ (Progress.andThen_sat _ _ (Progress.andThen_sat _ _
    (Progress.andThen_sat _ _ (Progress.andThen_sat _ _ hopen hsize) hkey) hquery) hstore)
    hfull) hcopy) hslash) hvalue

theorem tryBlock_balanced (host : Host) (matcher : Matcher) (KeyObject ValueLength : Nat)
    (ValueBuffer : List WCHAR) (flag : OperationFlag) :
    Balanced (tryBlock host matcher KeyObject ValueLength ValueBuffer flag).locals
      (tryBlock host matcher KeyObject ValueLength ValueBuffer flag).trace := by
  have hres := resolveName_balanced host KeyObject ValueLength ValueBuffer
  have hq : ∀ l t, Balanced l t → (queryMatcher matcher flag l t).Sat Balanced Balanced := by
    intro l t h
    unfold queryMatcher
    cases matcher l.fullKeyValueText flag with
    | none => simpa [Progress.raise, Progress.Sat] using h.raise _
    | some b =>
      refine Balanced.verdict ?_ b
      apply Balanced.append_neutral h
      exact ⟨rfl, rfl, rfl, rfl⟩
  have hsat : (resolveName host KeyObject ValueLength ValueBuffer).Sat Balanced Balanced := by
    unfold Progress.Sat
    split <;> exact hres
  exact Progress.Sat.both (Progress.andThen_sat _ _ hsat hq)

/-- The code after the label `Exit` releases exactly what the locals hold. -/
theorem exitBlock_releases (r : Run) (h : Balanced r.locals r.trace) :
    openedHandles (exitBlock r).trace = r.locals.keyHandle.toList ∧
    closedHandles (exitBlock r).trace = r.locals.keyHandle.toList ∧
    allocatedPools (exitBlock r).trace =
      r.locals.pKeyNameInformation.toList ++ r.locals.fullKeyValueName.toList ∧
    freedPools (exitBlock r).trace =
      r.locals.fullKeyValueName.toList ++ r.locals.pKeyNameInformation.toList := by
  obtain ⟨h1, h2, h3, h4⟩ := h
  unfold exitBlock
  cases hf : r.locals.fullKeyValueName <;> cases hk : r.locals.pKeyNameInformation <;>
    cases hh : r.locals.keyHandle <;>
    simp only [hf, hk, hh, openedHandles_snoc, closedHandles_snoc, allocatedPools_snoc,
      freedPools_snoc, h1, h2, h3, h4, Event.openedHandle, Event.closedHandle,
      Event.allocatedPool, Event.freedPool, Option.toList, List.append_nil, List.nil_append,
      and_self, List.singleton_append]

theorem exitBlock_locals (r : Run) : (exitBlock r).locals = r.locals := rfl

theorem STATUS_ACCESS_DENIED_ne_SUCCESS : STATUS_ACCESS_DENIED ≠ STATUS_SUCCESS := by decide

/-- The two handled cases of the switch return the verdict of `BlockRegistryOperation`
as a status. -/
theorem RegistryCallback_handled (host : Host) (matcher : Matcher)
    (info : REG_VALUE_KEY_INFORMATION) (flag : OperationFlag) :
    RegistryCallback host matcher (notifyClassOf flag) (some info) =
      some (if BlockRegistryOperation host matcher info.Object info.ValueName flag
        then STATUS_ACCESS_DENIED else STATUS_SUCCESS) := by
  cases flag <;>
    simp [RegistryCallback, RegistryCallbackRun, notifyClassOf, RegNtPreSetValueKey,
      RegNtPreDeleteValueKey, BlockRegistryOperation]

/-- When control reaches line 181 with the text `P`, the function returns what the matcher
returns for `P`, and `FALSE` when the matcher raises. -/
theorem BlockRegistryOperation_of_resolved (host : Host) (matcher : Matcher) (KeyObject : Nat)
    (ValueName : Option UNICODE_STRING) (flag : OperationFlag) (P : List WCHAR)
    (h : resolvedFullName host KeyObject ValueName = some P) :
    BlockRegistryOperation host matcher KeyObject ValueName flag =
      (matcher P flag).getD false := by
  have hb := fun n b => resolveName_blockOperation host KeyObject n b
  unfold resolvedFullName at h
  unfold BlockRegistryOperation BlockRegistryOperationRun
  cases ValueName with
  | none => simp at h
  | some v =>
    simp only at h ⊢
    by_cases hl : v.Length = 0
    · simp [hl] at h
    · simp only [hl, if_false] at h ⊢
      cases hbuf : v.Buffer with
      | none => simp [hbuf] at h
      | some buffer =>
        simp only [hbuf] at h ⊢
        cases he : (resolveName host KeyObject v.Length buffer).exit with
        | some e => simp [he] at h
        | none =>
          simp only [he, Option.some.injEq] at h
          simp only [exitBlock_locals, tryBlock, Progress.andThen, he, queryMatcher, h]
          cases hm : matcher P flag with
          | none => simpa [Progress.raise] using hb v.Length buffer
          | some b => simp

set_option maxRecDepth 100000 in
/-- The exits of `BlockRegistryOperation` other than the completed matcher query are
taken on concrete inputs: a null value name, a failed open, a zero size, each allocation
failing, a failed name query, a value buffer with no terminator within the capacity, an
exception raised by a host call, an exception raised while reading a value buffer that
ends before any terminator, and an exception raised by the matcher. -/
theorem failure_exits_reachable :
    (BlockRegistryOperationRun settingsHost blockAllMatcher 1 none FILTER_FLAG_WRITE).exit =
      ExitPoint.valueNameInvalid ∧
    (BlockRegistryOperationRun { settingsHost with openStatus := STATUS_ACCESS_DENIED }
      blockAllMatcher 1 (some licenseValue) FILTER_FLAG_WRITE).exit = ExitPoint.openFailed ∧
    (BlockRegistryOperationRun { settingsHost with requiredSize := 0 }
      blockAllMatcher 1 (some licenseValue) FILTER_FLAG_WRITE).exit = ExitPoint.sizeZero ∧
    (BlockRegistryOperationRun { settingsHost with keyNamePool := none }
      blockAllMatcher 1 (some licenseValue) FILTER_FLAG_WRITE).exit =
      ExitPoint.keyNameAllocFailed ∧
    (BlockRegistryOperationRun { settingsHost with queryStatus := STATUS_BUFFER_OVERFLOW }
      blockAllMatcher 1 (some licenseValue) FILTER_FLAG_WRITE).exit = ExitPoint.queryFailed ∧
    (BlockRegistryOperationRun { settingsHost with fullNamePool := none }
      blockAllMatcher 1 (some licenseValue) FILTER_FLAG_WRITE).exit =
      ExitPoint.fullNameAllocFailed ∧
    (BlockRegistryOperationRun settingsHost blockAllMatcher 1
      (some { Length := 2, MaximumLength := 1200, Buffer := some (List.replicate 600 65) })
      FILTER_FLAG_WRITE).exit = ExitPoint.catValueFailed ∧
    (BlockRegistryOperationRun
      { settingsHost with raises := fun s => decide (s = Step.queryName) }
      blockAllMatcher 1 (some licenseValue) FILTER_FLAG_WRITE).exit = ExitPoint.exception ∧
    (BlockRegistryOperationRun settingsHost blockAllMatcher 1
      (some { Length := 14, MaximumLength := 14, Buffer := some licenseName })
      FILTER_FLAG_WRITE).exit = ExitPoint.exception ∧
    (BlockRegistryOperationRun settingsHost (fun _ _ => none) 1 (some licenseValue)
      FILTER_FLAG_WRITE).exit = ExitPoint.exception := by
  refine ⟨by decide, by decide, by decide, by decide, by decide, by decide, by decide,
    by decide, by decide, by decide⟩

/-- C2. When name resolution succeeds with the full path `P`, `RegistryCallback` returns
`STATUS_ACCESS_DENIED` exactly when `MatchesFilter` returns true for `P` and the flag of
the notification class, and `STATUS_SUCCESS` otherwise; so if the matcher matches `P` for
write and not for delete, the set is rejected and the delete is allowed. -/
theorem verdict_follows_matcher (host : Host) (matcher : Matcher)
    (info : REG_VALUE_KEY_INFORMATION) (P : List WCHAR)
    (hres : resolvedFullName host info.Object info.ValueName = some P) :
    (∀ flag,
      (RegistryCallback host matcher (notifyClassOf flag) (some info) =
          some STATUS_ACCESS_DENIED ↔ matcher P flag = some true) ∧
      (matcher P flag ≠ some true →
        RegistryCallback host matcher (notifyClassOf flag) (some info) =
          some STATUS_SUCCESS)) ∧
    (matcher P FILTER_FLAG_WRITE = some true → matcher P FILTER_FLAG_DELETE = some false →
      RegistryCallback host matcher RegNtPreSetValueKey (some info) =
        some STATUS_ACCESS_DENIED ∧
      RegistryCallback host matcher RegNtPreDeleteValueKey (some info) =
        some STATUS_SUCCESS) := by
  have key : ∀ flag, RegistryCallback host matcher (notifyClassOf flag) (some info) =
      some (if (matcher P flag).getD false then STATUS_ACCESS_DENIED else STATUS_SUCCESS) := by
    intro flag
    rw [RegistryCallback_handled,
      BlockRegistryOperation_of_resolved host matcher info.Object info.ValueName flag P hres]
  refine ⟨fun flag => ⟨⟨?_, ?_⟩, ?_⟩, ?_⟩
  · intro h
    rw [key] at h
    cases hm : matcher P flag with
    | none => simp [hm, STATUS_ACCESS_DENIED_ne_SUCCESS.symm] at h
    | some b =>
      cases b with
      | true => rfl
      | false => simp [hm, STATUS_ACCESS_DENIED_ne_SUCCESS.symm] at h
  · intro h
    rw [key, h]
    rfl
  · intro h
    rw [key]
    cases hm : matcher P flag with
    | none => rfl
    | some b =>
      cases b with
      | true => exact absurd hm h
      | false => rfl
  · intro hw hd
    have h1 := key FILTER_FLAG_WRITE
    have h2 := key FILTER_FLAG_DELETE
    rw [hw] at h1
    rw [hd] at h2
    exact ⟨h1, h2⟩

/-- Witness of C2: key `\Config\App\Settings`, value `License`, a matcher that blocks
that path for write only; the set is rejected and the delete is allowed. -/
theorem verdict_follows_matcher_witness :
    resolvedFullName settingsHost 1 (some licenseValue) = some licensePath ∧
    RegistryCallback settingsHost writeOnlyMatcher RegNtPreSetValueKey
      (some ⟨1, some licenseValue⟩) = some STATUS_ACCESS_DENIED ∧
    RegistryCallback settingsHost writeOnlyMatcher RegNtPreDeleteValueKey
      (some ⟨1, some licenseValue⟩) = some STATUS_SUCCESS :=
  ⟨by decide,
    (verdict_follows_matcher settingsHost writeOnlyMatcher ⟨1, some licenseValue⟩ licensePath
      (by decide)).2 (by decide) (by decide)⟩

/-- C4. For a value-name descriptor that is null, has zero length or has a null buffer,
`BlockRegistryOperation` returns `FALSE` having made no call at all (no handle opened, no
key query, no allocation, no matcher query, nothing released), and `RegistryCallback`
returns `STATUS_SUCCESS`, for both operation kinds. -/
theorem invalid_value_name_makes_no_call (host : Host) (matcher : Matcher) (KeyObject : Nat)
    (ValueName : Option UNICODE_STRING) (flag : OperationFlag)
    (hinvalid : InvalidValueName ValueName) :
    BlockRegistryOperationRun host matcher KeyObject ValueName flag =
      { locals := Locals.initial, trace := [], exit := ExitPoint.valueNameInvalid } ∧
    BlockRegistryOperation host matcher KeyObject ValueName flag = false ∧
    RegistryCallbackRun host matcher (notifyClassOf flag) (some ⟨KeyObject, ValueName⟩) =
      some (STATUS_SUCCESS, []) := by
  have hrun : BlockRegistryOperationRun host matcher KeyObject ValueName flag =
      { locals := Locals.initial, trace := [], exit := ExitPoint.valueNameInvalid } := by
    unfold BlockRegistryOperationRun
    cases ValueName with
    | none => rfl
    | some v =>
      simp only
      by_cases hl : v.Length = 0
      · simp only [hl, if_true]; rfl
      · simp only [hl, if_false]
        cases hbuf : v.Buffer with
        | none => rfl
        | some buffer =>
          simp only [InvalidValueName, hbuf] at hinvalid
          simp [hl] at hinvalid
  refine ⟨hrun, ?_, ?_⟩
  · unfold BlockRegistryOperation
    rw [hrun]
    rfl
  · cases flag <;>
      simp [RegistryCallbackRun, notifyClassOf, RegNtPreSetValueKey, RegNtPreDeleteValueKey,
        hrun, Locals.initial]

/-- Witness of C4: a descriptor with positive length and a null buffer, on a host where
every call would succeed and under a matcher that blocks everything. -/
theorem invalid_value_name_makes_no_call_witness :
    BlockRegistryOperationRun settingsHost blockAllMatcher 1
        (some { Length := 14, MaximumLength := 16, Buffer := none }) FILTER_FLAG_WRITE =
      { locals := Locals.initial, trace := [], exit := ExitPoint.valueNameInvalid } ∧
    BlockRegistryOperation settingsHost blockAllMatcher 1
        (some { Length := 14, MaximumLength := 16, Buffer := none }) FILTER_FLAG_WRITE = false ∧
    RegistryCallbackRun settingsHost blockAllMatcher (notifyClassOf FILTER_FLAG_WRITE)
        (some ⟨1, some { Length := 14, MaximumLength := 16, Buffer := none }⟩) =
      some (STATUS_SUCCESS, []) :=
  invalid_value_name_makes_no_call settingsHost blockAllMatcher 1
    (some { Length := 14, MaximumLength := 16, Buffer := none }) FILTER_FLAG_WRITE
    (Or.inr rfl)

/-- C5. For an operation class that is neither `RegNtPreSetValueKey` nor
`RegNtPreDeleteValueKey`, `RegistryCallback` returns `STATUS_SUCCESS` and makes no call,
whatever the payload is, readable or not. -/
theorem other_classes_continue (host : Host) (matcher : Matcher) (OperationClass : Nat)
    (Argument2 : Option REG_VALUE_KEY_INFORMATION)
    (hset : OperationClass ≠ RegNtPreSetValueKey)
    (hdelete : OperationClass ≠ RegNtPreDeleteValueKey) :
    RegistryCallbackRun host matcher OperationClass Argument2 = some (STATUS_SUCCESS, []) ∧
    RegistryCallback host matcher OperationClass Argument2 = some STATUS_SUCCESS := by
  simp [RegistryCallback, RegistryCallbackRun, hset, hdelete]

/-- Witness of C5: class 0 (`RegNtPreDeleteKey`) with an unreadable payload. -/
theorem other_classes_continue_witness :
    RegistryCallbackRun settingsHost blockAllMatcher 0 none = some (STATUS_SUCCESS, []) ∧
    RegistryCallback settingsHost blockAllMatcher 0 none = some STATUS_SUCCESS :=
  other_classes_continue settingsHost blockAllMatcher 0 none (by decide) (by decide)

/-- C9. On every exit path of `BlockRegistryOperation` the handles it closes are exactly
the handles it opened, the pool blocks it frees are exactly the pool blocks it allocated
(each once, in reverse order of allocation), and it opens at most one handle and allocates
at most two blocks. -/
theorem resources_released_on_every_path (host : Host) (matcher : Matcher) (KeyObject : Nat)
    (ValueName : Option UNICODE_STRING) (flag : OperationFlag) :
    closedHandles (BlockRegistryOperationRun host matcher KeyObject ValueName flag).trace =
      openedHandles (BlockRegistryOperationRun host matcher KeyObject ValueName flag).trace ∧
    (freedPools (BlockRegistryOperationRun host matcher KeyObject ValueName flag).trace).Perm
      (allocatedPools (BlockRegistryOperationRun host matcher KeyObject ValueName flag).trace) ∧
    (openedHandles
      (BlockRegistryOperationRun host matcher KeyObject ValueName flag).trace).length ≤ 1 ∧
    (allocatedPools
      (BlockRegistryOperationRun host matcher KeyObject ValueName flag).trace).length ≤ 2 := by
  have hmain : ∀ r : Run, Balanced r.locals r.trace →
      closedHandles (exitBlock r).trace = openedHandles (exitBlock r).trace ∧
      (freedPools (exitBlock r).trace).Perm (allocatedPools (exitBlock r).trace) ∧
      (openedHandles (exitBlock r).trace).length ≤ 1 ∧
      (allocatedPools (exitBlock r).trace).length ≤ 2 := by
    intro r hr
    obtain ⟨h1, h2, h3, h4⟩ := exitBlock_releases r hr
    rw [h1, h2, h3, h4]
    refine ⟨rfl, List.perm_append_comm, ?_, ?_⟩
    · cases r.locals.keyHandle <;> simp
    · cases r.locals.pKeyNameInformation <;> cases r.locals.fullKeyValueName <;> simp
  have hinit : Balanced Locals.initial [] := ⟨rfl, rfl, rfl, rfl⟩
  unfold BlockRegistryOperationRun
  cases ValueName with
  | none => exact hmain _ hinit
  | some v =>
    simp only
    split_ifs
    · exact hmain _ hinit
    · cases v.Buffer with
      | none => exact hmain _ hinit
      | some buffer => exact hmain _ (tryBlock_balanced host matcher KeyObject v.Length buffer flag)

theorem copyWorker_length (cchDest : Nat) (src : List WCHAR) (status : NTSTATUS)
    (text : List WCHAR) (hpos : 0 < cchDest)
    (h : copyWorker cchDest src = StrResult.returned status text) : text.length < cchDest := by
  unfold copyWorker at h
  simp only at h
  split_ifs at h with h1 h2
  · simp only [StrResult.returned.injEq] at h
    rw [← h.2]
    exact h1
  · simp only [StrResult.returned.injEq] at h
    rw [← h.2, List.length_take]
    omega

theorem RtlStringCbCopyW_fits (dest : List WCHAR) (cbDest : Nat) (src : List WCHAR)
    (status : NTSTATUS) (text : List WCHAR) (hpos : SIZEOF_USHORT ≤ cbDest)
    (hmax : cbDest < ULONG_RANGE)
    (h : RtlStringCbCopyW dest cbDest src = StrResult.returned status text) :
    2 * text.length + SIZEOF_USHORT ≤ cbDest := by
  unfold SIZEOF_USHORT at hpos ⊢
  unfold ULONG_RANGE at hmax
  unfold RtlStringCbCopyW at h
  simp only at h
  split_ifs at h with h1
  · unfold NTSTRSAFE_MAX_CCH at h1
    omega
  · have hlen := copyWorker_length (cbDest / 2) src status text (by omega) h
    omega

theorem RtlStringCbCatW_fits (dest : List WCHAR) (cbDest : Nat) (src : List WCHAR)
    (status : NTSTATUS) (text : List WCHAR)
    (hdest : 2 * dest.length + SIZEOF_USHORT ≤ cbDest)
    (h : RtlStringCbCatW dest cbDest src = StrResult.returned status text) :
    2 * text.length + SIZEOF_USHORT ≤ cbDest := by
  unfold RtlStringCbCatW at h
  simp only at h
  split_ifs at h with h1
  · simp only [StrResult.returned.injEq] at h
    rw [← h.2]
    exact hdest
  · cases hw : copyWorker (cbDest / 2 - dest.length) src with
    | raised => simp [hw] at h
    | returned status2 tail =>
      simp only [hw, StrResult.returned.injEq] at h
      have hlen := copyWorker_length (cbDest / 2 - dest.length) src status2 tail (by omega) hw
      rw [← h.2, List.length_append]
      unfold SIZEOF_USHORT
      omega

theorem writesStayInside_append (capacity : Nat) (current : Option (Nat × Nat))
    (t u : List Event) :
    writesStayInside capacity current (t ++ u) =
      (writesStayInside capacity current t &&
        writesStayInside capacity (currentAllocation current t) u) := by
  induction t generalizing current with
  | nil => simp [writesStayInside, currentAllocation]
  | cons e t ih =>
    show (e.writesInside capacity current &&
      writesStayInside capacity (allocationAfter current e) (t ++ u)) = _
    rw [ih]
    simp only [writesStayInside, currentAllocation, List.foldl_cons, Bool.and_assoc]

theorem currentAllocation_append_one (current : Option (Nat × Nat)) (t : List Event)
    (e : Event) :
    currentAllocation current (t ++ [e]) = allocationAfter (currentAllocation current t) e := by
  simp [currentAllocation, List.foldl_append]

/-- One more call keeps the string calls inside when the call itself is inside. -/
theorem writesStayInside_append_one {capacity : Nat} {t : List Event}
    (h : writesStayInside capacity none t = true) {e : Event}
    (he : e.writesInside capacity (currentAllocation none t) = true) :
    writesStayInside capacity none (t ++ [e]) = true := by
  rw [writesStayInside_append, h]
  simp [writesStayInside, he]

theorem Quiet.step {capacity : Nat} {l : Locals} {t : List Event} (h : Quiet capacity l t)
    (l2 : Locals) (e : Event) (hl : l2.fullKeyValueText = l.fullKeyValueText)
    (he : e.writesInside capacity (currentAllocation none t) = true) :
    Quiet capacity l2 (t ++ [e]) :=
  ⟨writesStayInside_append_one h.1 he, hl.trans h.2⟩

theorem Quiet.leave_quiet {capacity : Nat} {l : Locals} {t : List Event} (h : Quiet capacity l t)
    (hcap : SIZEOF_USHORT ≤ capacity) (l2 : Locals) (e : Event)
    (hl : l2.fullKeyValueText = l.fullKeyValueText)
    (he : e.writesInside capacity (currentAllocation none t) = true) :
    Fits capacity l2 (t ++ [e]) := by
  refine ⟨writesStayInside_append_one h.1 he, ?_⟩
  rw [hl, h.2]
  simpa using hcap

theorem Live.leave_live {capacity : Nat} {l : Locals} {t : List Event} (h : Live capacity l t)
    (l2 : Locals) (e : Event) (hl : l2.fullKeyValueText = l.fullKeyValueText)
    (he : e.writesInside capacity (currentAllocation none t) = true) :
    Fits capacity l2 (t ++ [e]) := by
  refine ⟨writesStayInside_append_one h.1 he, ?_⟩
  rw [hl]
  exact h.2.2

/-- The part shared by lines 154-179: a string call on the full-name block with the
capacity as bound keeps the assertion `Live`. -/
theorem afterStringCall_live (capacity : Nat) (r : StrResult) (s : Step)
    (failure : ExitPoint) (copy : Bool) (l : Locals) (t : List Event)
    (h : Live capacity l t)
    (htext : ∀ status text, r = StrResult.returned status text →
      2 * text.length + SIZEOF_USHORT ≤ capacity) :
    (afterStringCall r s failure
      (if copy then Event.RtlStringCbCopyW l.fullKeyValueName capacity
        else Event.RtlStringCbCatW l.fullKeyValueName capacity) l t).Sat
      (Live capacity) (Fits capacity) := by
  cases r with
  | raised =>
    have hb : Fits capacity l (t ++ [Event.raised s]) := h.leave_live l _ rfl rfl
    simpa [afterStringCall, Progress.raise, Progress.Sat] using hb
  | returned status text =>
    obtain ⟨hw, ⟨pool, hcur, hpool⟩, _⟩ := h
    have hfit := htext status text rfl
    have hinside : ((if copy then Event.RtlStringCbCopyW l.fullKeyValueName capacity
        else Event.RtlStringCbCatW l.fullKeyValueName capacity) status text).writesInside
        capacity (currentAllocation none t) = true := by
      cases copy <;> simp [Event.writesInside, stringCallInside, hcur, hpool, hfit]
    have hkeep : currentAllocation none (t ++ [(if copy then
        Event.RtlStringCbCopyW l.fullKeyValueName capacity
        else Event.RtlStringCbCatW l.fullKeyValueName capacity) status text]) =
        some (capacity, pool) := by
      rw [currentAllocation_append_one, hcur]
      cases copy <;> rfl
    have hlive : Live capacity { l with fullKeyValueText := text }
        (t ++ [(if copy then Event.RtlStringCbCopyW l.fullKeyValueName capacity
          else Event.RtlStringCbCatW l.fullKeyValueName capacity) status text]) :=
      ⟨writesStayInside_append_one hw hinside, ⟨pool, hkeep, hpool⟩, hfit⟩
    simp only [afterStringCall, Progress.Sat]
    split
    · exact hlive
    · exact ⟨hlive.1, hlive.2.2⟩

/-- Lines 103-179 keep every string call inside the capacity computed at line 143 and
allocated at line 144. -/
theorem resolveName_live (host : Host) (KeyObject ValueLength : Nat)
    (ValueBuffer : List WCHAR)
    (hcap : SIZEOF_USHORT ≤ fullKeyValueLength (NameLength host) ValueLength) :
    (resolveName host KeyObject ValueLength ValueBuffer).Sat
      (Live (fullKeyValueLength (NameLength host) ValueLength))
      (Fits (fullKeyValueLength (NameLength host) ValueLength)) := by
  have hmax : fullKeyValueLength (NameLength host) ValueLength < ULONG_RANGE :=
    Nat.mod_lt _ (by decide)
  generalize hc : fullKeyValueLength (NameLength host) ValueLength = capacity at hcap hmax
  have h0 : Quiet capacity Locals.initial [] := ⟨rfl, rfl⟩
  have hopen : ∀ l t, Quiet capacity l t →
      (openKey host KeyObject l t).Sat (Quiet capacity) (Fits capacity) := by
    intro l t h
    unfold openKey Progress.raise Progress.Sat
    split_ifs
    · exact h.leave_quiet hcap _ _ rfl rfl
    · exact h.leave_quiet hcap _ _ rfl rfl
    · exact h.step _ _ rfl rfl
  have hsize : ∀ l t, Quiet capacity l t →
      (querySize host l t).Sat (Quiet capacity) (Fits capacity) := by
    intro l t h
    unfold querySize Progress.raise Progress.Sat
    split_ifs
    · exact h.leave_quiet hcap _ _ rfl rfl
    · exact h.leave_quiet hcap _ _ rfl rfl
    · exact h.step _ _ rfl rfl
  have hkey : ∀ l t, Quiet capacity l t →
      (allocKeyName host l t).Sat (Quiet capacity) (Fits capacity) := by
    intro l t h
    unfold allocKeyName Progress.raise Progress.Sat
    split_ifs
    · exact h.leave_quiet hcap _ _ rfl rfl
    · cases host.keyNamePool with
      | none => exact h.leave_quiet hcap _ _ rfl rfl
      | some pool => exact h.step _ _ rfl rfl
  have hquery : ∀ l t, Quiet capacity l t →
      (queryName host l t).Sat (Quiet capacity) (Fits capacity) := by
    intro l t h
    unfold queryName Progress.raise Progress.Sat
    split_ifs
    · exact h.leave_quiet hcap _ _ rfl rfl
    · exact h.leave_quiet hcap _ _ rfl rfl
    · exact h.step _ _ rfl rfl
  have hstore : ∀ l t, Quiet capacity l t →
      (storeTerminator host l t).Sat (Quiet capacity) (Fits capacity) := by
    intro l t h
    unfold storeTerminator Progress.raise Progress.Sat
    split_ifs
    · exact h.leave_quiet hcap _ _ rfl rfl
    · exact h.step _ _ rfl rfl
  have hfull : ∀ l t, Quiet capacity l t →
      (allocFullName host ValueLength l t).Sat (Live capacity) (Fits capacity) := by
    intro l t h
    unfold allocFullName Progress.raise Progress.Sat
    split_ifs
    · exact h.leave_quiet hcap _ _ rfl rfl
    · cases host.fullNamePool with
      | none => exact h.leave_quiet hcap _ _ rfl rfl
      | some pool =>
        simp only [hc]
        refine ⟨writesStayInside_append_one h.1 rfl, ⟨pool, ?_, rfl⟩, ?_⟩
        · rw [currentAllocation_append_one]
          rfl
        · show 2 * l.fullKeyValueText.length + SIZEOF_USHORT ≤ capacity
          rw [h.2]
          simpa using hcap
  have hcopy : ∀ l t, Live capacity l t →
      (copyKeyName host ValueLength l t).Sat (Live capacity) (Fits capacity) := by
    intro l t h
    unfold copyKeyName
    rw [hc]
    split_ifs
    · have hb : Fits capacity l (t ++ [Event.raised Step.copyKeyName]) := h.leave_live l _ rfl rfl
      simpa [Progress.raise, Progress.Sat] using hb
    · refine afterStringCall_live capacity _ _ _ true l t h ?_
      intro status text hr
      exact RtlStringCbCopyW_fits _ _ _ status text hcap hmax hr
  have hslash : ∀ l t, Live capacity l t →
      (catBackslash host ValueLength l t).Sat (Live capacity) (Fits capacity) := by
    intro l t h
    unfold catBackslash
    rw [hc]
    split_ifs
    · have hb : Fits capacity l (t ++ [Event.raised Step.catBackslash]) := h.leave_live l _ rfl rfl
      simpa [Progress.raise, Progress.Sat] using hb
    · refine afterStringCall_live capacity _ _ _ false l t h ?_
      intro status text hr
      exact RtlStringCbCatW_fits _ _ _ status text h.2.2 hr
  have hvalue : ∀ l t, Live capacity l t →
      (catValueName host ValueLength ValueBuffer l t).Sat (Live capacity) (Fits capacity) := by
    intro l t h
    unfold catValueName
    rw [hc]
    split_ifs
    · have hb : Fits capacity l (t ++ [Event.raised Step.catValueName]) := h.leave_live l _ rfl rfl
      simpa [Progress.raise, Progress.Sat] using hb
    · refine afterStringCall_live capacity _ _ _ false l t h ?_
      intro status text hr
      exact RtlStringCbCatW_fits _ _ _ status text h.2.2 hr
  unfold resolveName
  exact Progress.andThen_sat _ _ (Progress.andThen_sat _ _ (Progress.andThen_sat _ _
    (Progress.andThen_sat _ _ (Progress.andThen_sat _ _ (Progress.andThen_sat _ _
    (Progress.andThen_sat _ _ (Progress.andThen_sat _ _ (hopen _ _ h0) hsize) hkey) hquery)
    hstore) hfull) hcopy) hslash) hvalue

/-- The matcher query and the code after the label `Exit` make no string call. -/
theorem exitBlock_fits (capacity : Nat) (r : Run) (h : Fits capacity r.locals r.trace) :
    Fits capacity (exitBlock r).locals (exitBlock r).trace := by
  obtain ⟨hw, hfit⟩ := h
  refine ⟨?_, hfit⟩
  unfold exitBlock
  cases r.locals.fullKeyValueName <;> cases r.locals.pKeyNameInformation <;>
    cases r.locals.keyHandle
  all_goals repeat' first | exact hw | rfl | apply writesStayInside_append_one

theorem tryBlock_fits (host : Host) (matcher : Matcher) (KeyObject ValueLength : Nat)
    (ValueBuffer : List WCHAR) (flag : OperationFlag)
    (hcap : SIZEOF_USHORT ≤ fullKeyValueLength (NameLength host) ValueLength) :
    Fits (fullKeyValueLength (NameLength host) ValueLength)
      (tryBlock host matcher KeyObject ValueLength ValueBuffer flag).locals
      (tryBlock host matcher KeyObject ValueLength ValueBuffer flag).trace := by
  have hres := resolveName_live host KeyObject ValueLength ValueBuffer hcap
  have hq : ∀ l t, Live (fullKeyValueLength (NameLength host) ValueLength) l t →
      (queryMatcher matcher flag l t).Sat
        (Fits (fullKeyValueLength (NameLength host) ValueLength))
        (Fits (fullKeyValueLength (NameLength host) ValueLength)) := by
    intro l t h
    unfold queryMatcher
    cases matcher l.fullKeyValueText flag with
    | none =>
      have hb : Fits (fullKeyValueLength (NameLength host) ValueLength) l
          (t ++ [Event.raised Step.matchesFilter]) := h.leave_live l _ rfl rfl
      simpa [Progress.raise, Progress.Sat] using hb
    | some b =>
      have hb : Fits (fullKeyValueLength (NameLength host) ValueLength)
          { l with blockOperation := b }
          (t ++ [Event.MatchesFilter l.fullKeyValueText flag b]) := h.leave_live _ _ rfl rfl
      exact hb
  exact Progress.Sat.both (Progress.andThen_sat _ _ hres hq)

/-- C6. For a key name whose byte length is at most a host maximum that leaves room in
a `ULONG` and a value name whose `Length` is at most 65535, the capacity
`NameLength + 2 + Length + 1000` of line 143 does not wrap and covers the key name, the
backslash, the counted value name and the two-byte terminator; and in the run every
string call comes after the allocation of a block of exactly that capacity (line 144),
writes to that block, is given that capacity as its bound, and leaves its text and
terminator inside it, so the bytes the three calls write never exceed the capacity,
whatever the value buffer holds. -/
theorem capacity_covers_concatenation (hostMax : Nat) (host : Host) (matcher : Matcher)
    (KeyObject : Nat) (v : UNICODE_STRING) (flag : OperationFlag)
    (hhost : hostMax + 2 + USHORT_MAX + 1000 < ULONG_RANGE)
    (hN : NameLength host ≤ hostMax) (hV : v.Length ≤ USHORT_MAX) :
    fullKeyValueLength (NameLength host) v.Length = NameLength host + 2 + v.Length + 1000 ∧
    NameLength host + 2 + v.Length + SIZEOF_USHORT ≤
      fullKeyValueLength (NameLength host) v.Length ∧
    writesStayInside (fullKeyValueLength (NameLength host) v.Length) none
      (BlockRegistryOperationRun host matcher KeyObject (some v) flag).trace = true ∧
    2 * (BlockRegistryOperationRun host matcher KeyObject (some v)
        flag).locals.fullKeyValueText.length + SIZEOF_USHORT ≤
      fullKeyValueLength (NameLength host) v.Length := by
  have hno : fullKeyValueLength (NameLength host) v.Length =
      NameLength host + 2 + v.Length + 1000 := by
    unfold fullKeyValueLength
    apply Nat.mod_eq_of_lt
    omega
  have hcap : SIZEOF_USHORT ≤ fullKeyValueLength (NameLength host) v.Length := by
    rw [hno]
    unfold SIZEOF_USHORT
    omega
  have hinvalid : Fits (fullKeyValueLength (NameLength host) v.Length) Locals.initial [] :=
    ⟨rfl, by simpa [Locals.initial] using hcap⟩
  have hrun : Fits (fullKeyValueLength (NameLength host) v.Length)
      (BlockRegistryOperationRun host matcher KeyObject (some v) flag).locals
      (BlockRegistryOperationRun host matcher KeyObject (some v) flag).trace := by
    unfold BlockRegistryOperationRun
    simp only
    split_ifs
    · exact exitBlock_fits _ _ hinvalid
    · cases v.Buffer with
      | none => exact exitBlock_fits _ _ hinvalid
      | some buffer =>
        exact exitBlock_fits _ _ (tryBlock_fits host matcher KeyObject v.Length buffer flag hcap)
  refine ⟨hno, ?_, hrun.1, hrun.2⟩
  rw [hno]
  unfold SIZEOF_USHORT
  omega

/-- Witness of C6: a host maximum of 262144 bytes, the key `\Config\App\Settings` (40
bytes) and a value name of 2 bytes in a buffer of 600 code units without a terminator;
the capacity is 1044 bytes and the truncated text with its terminator stays inside it. -/
theorem capacity_covers_concatenation_witness :
    fullKeyValueLength (NameLength settingsHost) unterminatedValue.Length =
      NameLength settingsHost + 2 + unterminatedValue.Length + 1000 ∧
    NameLength settingsHost + 2 + unterminatedValue.Length + SIZEOF_USHORT ≤
      fullKeyValueLength (NameLength settingsHost) unterminatedValue.Length ∧
    writesStayInside (fullKeyValueLength (NameLength settingsHost) unterminatedValue.Length)
      none
      (BlockRegistryOperationRun settingsHost writeOnlyMatcher 1 (some unterminatedValue)
        FILTER_FLAG_WRITE).trace = true ∧
    2 * (BlockRegistryOperationRun settingsHost writeOnlyMatcher 1 (some unterminatedValue)
        FILTER_FLAG_WRITE).locals.fullKeyValueText.length + SIZEOF_USHORT ≤
      fullKeyValueLength (NameLength settingsHost) unterminatedValue.Length :=
  capacity_covers_concatenation 262144 settingsHost writeOnlyMatcher 1 unterminatedValue
    FILTER_FLAG_WRITE (by decide) (by decide) (by decide)

/-- C3, the code at a failing input: for the key `\Config\App\Settings` and a value name
whose descriptor has `Length` 14 (the seven code units `License`) in a buffer that goes on
with `Key` before its terminator, every host call succeeds and the text handed to the
matcher is `\Config\App\Settings\LicenseKey`, not the key, a backslash and the first
`Length` bytes of the buffer. -/
theorem value_name_copied_past_Length :
    countedValueName licensePrefixValue = licenseName ∧
    resolvedFullName settingsHost 1 (some licensePrefixValue) =
      some (settingsKey ++ [92] ++ licenseName ++ [75, 101, 121]) ∧
    resolvedFullName settingsHost 1 (some licensePrefixValue) ≠
      some (settingsKey ++ [92] ++ countedValueName licensePrefixValue) := by
  decide

/-- C10, the code at every input: when the sizing query reports `4 + N` for a key name of
`N` bytes, the two-byte terminator stored at offset `4 + N` does not fit in the allocation
of `4 + N + 1` bytes; for the key `\Config\App\Settings` the run allocates 45 bytes and
stores the terminator at offset 44. -/
theorem terminator_store_exceeds_allocation :
    (∀ N, terminatorWithinAllocation (FIELD_OFFSET_Name + N) N = false) ∧
    Event.ExAllocatePoolWithTag 45 (some 100) ∈
      (BlockRegistryOperationRun settingsHost writeOnlyMatcher 1 (some licenseValue)
        FILTER_FLAG_WRITE).trace ∧
    Event.storeUSHORT (some 100) 44 ∈
      (BlockRegistryOperationRun settingsHost writeOnlyMatcher 1 (some licenseValue)
        FILTER_FLAG_WRITE).trace := by
  refine ⟨?_, by decide, by decide⟩
  intro N
  have h : (FIELD_OFFSET_Name + N + 1) % ULONG_RANGE ≤ FIELD_OFFSET_Name + N + 1 :=
    Nat.mod_le _ _
  simp only [terminatorWithinAllocation, terminatorOffset, keyNameAllocationSize,
    SIZEOF_USHORT, decide_eq_false_iff_not]
  omega

/-- C7. The destructor calls `CmUnRegisterCallback` first and only then destroys and
frees the matcher; and in every state passed through by the constructor followed by the
destructor, whatever the host answers, the matcher is not destroyed while the hook is
registered. -/
theorem hook_removed_before_matcher_destroyed (host : LifecycleHost) (s : Lifecycle) :
    (RegistryBlockingFilterDestructor s).events =
      LifecycleEvent.CmUnRegisterCallback s.RegistryFilterCookie ::
        (match s.RegistryStringFilters with
          | some pool =>
            [LifecycleEvent.destroyStringFilters pool, LifecycleEvent.ExFreePoolWithTag pool]
          | none => []) ∧
    (lifecycleStates host).all Lifecycle.teardownSafe = true := by
  constructor
  · unfold RegistryBlockingFilterDestructor
    cases s.RegistryStringFilters <;> rfl
  · rcases host with ⟨pool, status, cookie⟩
    cases pool with
    | none => rfl
    | some p =>
      by_cases hs : NT_SUCCESS status = true
      · simp [lifecycleStates, RegistryBlockingFilter, RegistryBlockingFilterDestructor, hs,
          Lifecycle.idle, Lifecycle.teardownSafe]
      · simp [lifecycleStates, RegistryBlockingFilter, RegistryBlockingFilterDestructor, hs,
          Lifecycle.idle, Lifecycle.teardownSafe]

/-- C8 as stated fails: with the matcher allocated and `CmRegisterCallbackEx` failing,
the constructor makes no call that destroys the matcher and the state it leaves is not
idle, the matcher is still held. -/
theorem constructor_keeps_matcher_counterexample :
    failingInstallHost.newStringFilters = some 500 ∧
    NT_SUCCESS failingInstallHost.registerStatus = false ∧
    (RegistryBlockingFilter failingInstallHost Lifecycle.idle).state.isIdle = false ∧
    (RegistryBlockingFilter failingInstallHost Lifecycle.idle).state.RegistryStringFilters =
      some 500 ∧
    (RegistryBlockingFilter failingInstallHost Lifecycle.idle).state.matcher =
      MatcherState.constructed ∧
    LifecycleEvent.destroyStringFilters 500 ∉
      (RegistryBlockingFilter failingInstallHost Lifecycle.idle).events := by
  decide

/-- C8 amended. If the matcher is constructed and `CmRegisterCallbackEx` fails, the
constructor stores the failure status in `InitializeStatus` and leaves no hook
registered; it makes no further call, and the matcher stays constructed and held in
`RegistryStringFilters`; the destructor, run on that state, is what destroys and frees
it. -/
theorem constructor_reports_install_failure (host : LifecycleHost) (pool : Nat)
    (hnew : host.newStringFilters = some pool)
    (hfail : NT_SUCCESS host.registerStatus = false) :
    (RegistryBlockingFilter host Lifecycle.idle).InitializeStatus = some host.registerStatus ∧
    (RegistryBlockingFilter host Lifecycle.idle).state.registeredCookie = none ∧
    (RegistryBlockingFilter host Lifecycle.idle).state.RegistryStringFilters = some pool ∧
    (RegistryBlockingFilter host Lifecycle.idle).state.matcher = MatcherState.constructed ∧
    (RegistryBlockingFilter host Lifecycle.idle).events =
      [LifecycleEvent.newStringFilters (some pool),
        LifecycleEvent.CmRegisterCallbackEx host.registerStatus] ∧
    (RegistryBlockingFilterDestructor (RegistryBlockingFilter host Lifecycle.idle).state).events =
      [LifecycleEvent.CmUnRegisterCallback 0, LifecycleEvent.destroyStringFilters pool,
        LifecycleEvent.ExFreePoolWithTag pool] := by
  simp [RegistryBlockingFilter, RegistryBlockingFilterDestructor, hnew, hfail, Lifecycle.idle]

/-- Witness of the amended C8 on `failingInstallHost`. -/
theorem constructor_reports_install_failure_witness :
    (RegistryBlockingFilter failingInstallHost Lifecycle.idle).InitializeStatus =
      some STATUS_UNSUCCESSFUL ∧
    (RegistryBlockingFilter failingInstallHost Lifecycle.idle).state.registeredCookie = none ∧
    (RegistryBlockingFilter failingInstallHost Lifecycle.idle).state.RegistryStringFilters =
      some 500 ∧
    (RegistryBlockingFilter failingInstallHost Lifecycle.idle).state.matcher =
      MatcherState.constructed ∧
    (RegistryBlockingFilter failingInstallHost Lifecycle.idle).events =
      [LifecycleEvent.newStringFilters (some 500),
        LifecycleEvent.CmRegisterCallbackEx STATUS_UNSUCCESSFUL] ∧
    (RegistryBlockingFilterDestructor
        (RegistryBlockingFilter failingInstallHost Lifecycle.idle).state).events =
      [LifecycleEvent.CmUnRegisterCallback 0, LifecycleEvent.destroyStringFilters 500,
        LifecycleEvent.ExFreePoolWithTag 500] :=
  constructor_reports_install_failure failingInstallHost 500 rfl (by decide)

/-- A source that holds a terminator right after `s` is copied whole when it fits. -/
theorem copyWorker_terminated (cchDest : Nat) (s rest : List WCHAR) (hs : ∀ w ∈ s, w ≠ 0)
    (hlen : s.length < cchDest) :
    copyWorker cchDest (s ++ 0 :: rest) = StrResult.returned STATUS_SUCCESS s := by
  have htake : (s ++ 0 :: rest).takeWhile (fun w => w != 0) = s := by
    rw [List.takeWhile_append_of_pos (by simpa using hs)]
    simp
  unfold copyWorker
  simp only [htake, hlen, if_true, List.length_append, List.length_cons]
  rw [if_pos (by omega)]

/-- When every host call succeeds, neither name contains a zero code unit, the value
buffer holds a terminator right after the `Length` bytes of the value name and the capacity
does not wrap, the text handed to the matcher is the key name, a backslash and the value
name. -/
theorem resolvedFullName_of_terminated (host : Host) (KeyObject : Nat) (V rest : List WCHAR)
    (maxLength pool1 pool2 : Nat)
    (hraises : ∀ s, host.raises s = false) (hopen : NT_SUCCESS host.openStatus = true)
    (hsize : host.requiredSize % ULONG_RANGE ≠ 0) (hk : host.keyNamePool = some pool1)
    (hq : NT_SUCCESS host.queryStatus = true) (hf : host.fullNamePool = some pool2)
    (hK : ∀ w ∈ host.keyName, w ≠ 0) (hV : ∀ w ∈ V, w ≠ 0) (hne : V ≠ [])
    (hbound : 2 * host.keyName.length + 2 + 2 * V.length + 1000 < ULONG_RANGE) :
    resolvedFullName host KeyObject
        (some { Length := 2 * V.length, MaximumLength := maxLength,
                Buffer := some (V ++ 0 :: rest) }) =
      some (host.keyName ++ [92] ++ V) := by
  have hpos : 0 < V.length := List.length_pos.2 hne
  have hcb : fullKeyValueLength (NameLength host) (2 * V.length) =
      2 * host.keyName.length + 2 + 2 * V.length + 1000 := by
    unfold fullKeyValueLength NameLength
    exact Nat.mod_eq_of_lt hbound
  have hcch : (2 * host.keyName.length + 2 + 2 * V.length + 1000) / 2 =
      host.keyName.length + V.length + 501 := by omega
  have hmax : ¬ NTSTRSAFE_MAX_CCH < host.keyName.length + V.length + 501 := by
    unfold ULONG_RANGE at hbound
    unfold NTSTRSAFE_MAX_CCH
    omega
  have hcopy : RtlStringCbCopyW [] (fullKeyValueLength (NameLength host) (2 * V.length))
      (terminatedName host) = StrResult.returned STATUS_SUCCESS host.keyName := by
    unfold RtlStringCbCopyW terminatedName
    simp only [hcb, hcch]
    rw [if_neg (by omega)]
    exact copyWorker_terminated _ _ [] hK (by omega)
  have hslash : RtlStringCbCatW host.keyName
      (fullKeyValueLength (NameLength host) (2 * V.length)) [92, 0] =
      StrResult.returned STATUS_SUCCESS (host.keyName ++ [92]) := by
    unfold RtlStringCbCatW
    simp only [hcb, hcch]
    rw [if_neg (by omega)]
    have hw : copyWorker (host.keyName.length + V.length + 501 - host.keyName.length) [92, 0] =
        StrResult.returned STATUS_SUCCESS [92] :=
      copyWorker_terminated _ [92] [] (by simp) (by simp only [List.length_singleton]; omega)
    rw [hw]
  have hvalue : RtlStringCbCatW (host.keyName ++ [92])
      (fullKeyValueLength (NameLength host) (2 * V.length)) (V ++ 0 :: rest) =
      StrResult.returned STATUS_SUCCESS (host.keyName ++ [92] ++ V) := by
    unfold RtlStringCbCatW
    simp only [hcb, hcch, List.length_append, List.length_singleton]
    rw [if_neg (by omega)]
    rw [copyWorker_terminated _ V rest hV (by omega)]
  have hsucc : NT_SUCCESS STATUS_SUCCESS = true := by decide
  unfold resolvedFullName
  have hlen : ¬ (2 * V.length = 0) := by omega
  simp only [hlen, if_false]
  simp [resolveName, Progress.andThen, openKey, querySize, allocKeyName, queryName,
    storeTerminator, allocFullName, copyKeyName, catBackslash, catValueName, afterStringCall,
    hraises, hopen, hsize, hk, hq, hf, hcopy, hslash, hvalue, hsucc, Locals.initial]

end PeaceMaker
